import Mathlib

/-!
Shallow embedding of the mock Sectigo certificate-authority server
(`src/main.go`): the order store, identifier generation, the
scheduler-driven issuance transition, and the four store operations
invoked by the HTTP handlers (enroll/create, status/get,
collect/certificateIfReady, revoke/revokeByExternalID).

Modelling notes.
* `Order` mirrors the Go struct `Order` (`ID`, `CSR`, `Status`,
  `Certificate`, `CreatedAt`).  `Status` is kept as a `String` with the
  literal values `"pending"`, `"issued"`, `"revoked"`, exactly as in the
  source.  `CreatedAt` (`time.Time`) is abstracted to a `Nat` timestamp:
  nothing in the program ever reads it back.
* The Go store is `map[int]*Order` plus the counter `nextID = 12345`.
  The map is embedded as the list of its entries (`List Order`), with
  insertion of a fresh key appending to the list.  Since every inserted
  key equals the freshly incremented counter, the list never holds two
  orders with the same id on reachable states, and list order only
  matters for `handleRevoke`, whose Go loop iterates the map in
  unspecified order but can match at most one entry.
* Concurrency: the Go code guards every operation by one coarse mutex,
  so every execution is an interleaving of atomic operations; the trace
  type `Op` and `run` model exactly those interleavings (create,
  scheduler-fired mark-issued, revoke).
* The Go counter `nextID` is an `int`, so `nextID++` wraps on 64-bit
  two's-complement overflow.  `Store.nextID : Nat` keeps an unbounded
  view, harmless for the lookup/mutation claims; the identifier
  sequence produced by creates, where the wrap matters, is modelled
  faithfully by `goWrap`/`counterAfter`/`goCreateIDs`.
* `fmt.Sprintf("%d", o.ID)` on the nonnegative ids is embedded as
  `decString`, a canonical decimal renderer written with explicit fuel
  so that it computes by kernel reduction; `sscanfDec` embeds the
  lenient `fmt.Sscanf(_, "%d")` parse (skip leading spaces, optional
  sign, leading zeros allowed), used by the handlers only in
  hypotheses – `handleRevoke` ignores the parse result and matches by
  string equality.
-/

/-- One decimal digit rendered as a character, as printf does. -/
def digitChar10 (d : Nat) : Char :=
  match d with
  | 0 => '0' | 1 => '1' | 2 => '2' | 3 => '3' | 4 => '4'
  | 5 => '5' | 6 => '6' | 7 => '7' | 8 => '8' | 9 => '9'
  | _ => '*'

/-- Digits of `n` in base 10, most significant first, driven by fuel so
that the definition is structural and computes in the kernel. -/
def decList : Nat → Nat → List Char
  | 0, _ => []
  | fuel + 1, n =>
    if n / 10 = 0 then [digitChar10 (n % 10)]
    else decList fuel (n / 10) ++ [digitChar10 (n % 10)]

/-- Embedding of Go `fmt.Sprintf("%d", n)` for a nonnegative `n`:
the canonical decimal rendering. -/
def decString (n : Nat) : String := ⟨decList (n + 1) n⟩

/-- Numeric value of a decimal digit character (proof helper). -/
def charVal (c : Char) : Nat := c.toNat - 48

/-- Value of a most-significant-first digit string (proof helper). -/
def parseDigits (l : List Char) : Nat :=
  l.foldl (fun a c => 10 * a + charVal c) 0

/-- Embedding of Go `fmt.Sscanf(s, "%d", &x)`: skip leading spaces,
accept an optional sign and leading zeros, require at least one digit,
ignore anything after the digits. -/
def sscanfDec (s : String) : Option Int :=
  let cs := s.data.dropWhile (fun c => c = ' ')
  let signAndRest : Bool × List Char :=
    match cs with
    | '-' :: rest => (true, rest)
    | '+' :: rest => (false, rest)
    | _ => (false, cs)
  let digits := signAndRest.2.takeWhile (fun c => c.isDigit)
  if digits.isEmpty then none
  else
    let v : Nat := digits.foldl (fun a c => 10 * a + charVal c) 0
    some (if signAndRest.1 then -(v : Int) else (v : Int))

/-- Go struct `Order` from `src/main.go`. -/
structure Order where
  id : Nat
  csr : String
  status : String
  certificate : String
  createdAt : Nat
deriving DecidableEq

/-- The constant mock PEM body returned by `generateFakeCert`. -/
def generateFakeCert : String :=
  "-----BEGIN CERTIFICATE-----\nMIIQD...... (Mock Certificate Data) ......\n......\n......\n-----END CERTIFICATE-----"

/-- The in-memory store: the entries of the Go map `orders` together
with the counter `nextID`. -/
structure Store where
  orders : List Order
  nextID : Nat
deriving DecidableEq

/-- The store at process start: empty map, `nextID = 12345`. -/
def initStore : Store := { orders := [], nextID := 12345 }

/-- `handleEnroll`'s store mutation: allocate `nextID`, increment it,
and insert a pending order carrying the caller's CSR verbatim and the
mock certificate.  Returns the allocated id with the new store. -/
def create (csr : String) (now : Nat) (st : Store) : Nat × Store :=
  let orderID := st.nextID
  let o : Order :=
    { id := orderID, csr := csr, status := "pending",
      certificate := generateFakeCert, createdAt := now }
  (orderID, { orders := st.orders ++ [o], nextID := st.nextID + 1 })

/-- Map lookup `orders[id]`: the unique (on reachable states) entry
with the given key. -/
def get (i : Nat) (st : Store) : Option Order :=
  st.orders.find? (fun o => o.id == i)

/-- `handleStatus`'s observable result: the stored status, or `none`
for the 404 "Order not found" path. -/
def getStatus (i : Nat) (st : Store) : Option String :=
  (get i st).map Order.status

/-- The body of the goroutine spawned by `handleEnroll` after its
5-second sleep: `if o, ok := orders[id]; ok { o.Status = "issued" }`.
On the list-of-entries view this rewrites the status of every entry
with the given key (at most one on reachable states) and touches
nothing else. -/
def markIssued (i : Nat) (st : Store) : Store :=
  { st with
    orders := st.orders.map
      (fun o => if o.id = i then { o with status := "issued" } else o) }

/-- Result of `handleCollect`: 404, 400 "not ready (status: …)", or the
certificate body. -/
inductive CollectResult where
  | notFound : CollectResult
  | notReady (status : String) : CollectResult
  | cert (body : String) : CollectResult
deriving DecidableEq

/-- `handleCollect`'s core: look the order up; absent keys give
NotFound; a status other than `"issued"` gives NotReady carrying that
status; otherwise the stored certificate body is released. -/
def certificateIfReady (i : Nat) (st : Store) : CollectResult :=
  match get i st with
  | none => CollectResult.notFound
  | some o =>
    if o.status ≠ "issued" then CollectResult.notReady o.status
    else CollectResult.cert o.certificate

/-- Go struct `RevokeResponse`. -/
structure RevokeResponse where
  status : String
  message : String
deriving DecidableEq

/-- `handleRevoke`'s loop: scan the entries for the first one whose
`fmt.Sprintf("%d", o.ID)` equals the request string, set its status to
`"revoked"` and stop (`break`).  Returns the updated entries and the
`found` flag. -/
def revokeScan : List Order → String → List Order × Bool
  | [], _ => ([], false)
  | o :: rest, s =>
    if decString o.id = s then ({ o with status := "revoked" } :: rest, true)
    else
      let r := revokeScan rest s
      (o :: r.1, r.2)

/-- `handleRevoke`'s core: run the scan and report
`{status: "success"}` when a match was revoked, `{status: "failure",
message: "Order not found"}` otherwise (always HTTP 200). -/
def revokeByExternalID (s : String) (st : Store) : Store × RevokeResponse :=
  let r := revokeScan st.orders s
  ({ st with orders := r.1 },
   if r.2 then { status := "success", message := "Certificate revoked" }
   else { status := "failure", message := "Order not found" })

/-- The atomic store operations an execution interleaves: a create from
`handleEnroll`, the scheduler goroutine firing for some id, and a
revoke request. -/
inductive Op where
  | create (csr : String) (now : Nat) : Op
  | schedFire (i : Nat) : Op
  | revoke (s : String) : Op

/-- Apply one atomic operation to the store. -/
def applyOp (st : Store) : Op → Store
  | Op.create csr now => (create csr now st).2
  | Op.schedFire i => markIssued i st
  | Op.revoke s => (revokeByExternalID s st).1

/-- Run a sequence of atomic operations. -/
def run (st : Store) : List Op → Store
  | [] => st
  | op :: ops => run (applyOp st op) ops

/-- The identifiers returned by the `create` calls of a trace, in
order. -/
def runIDs (st : Store) : List Op → List Nat
  | [] => []
  | Op.create csr now :: ops =>
    st.nextID :: runIDs (applyOp st (Op.create csr now)) ops
  | op :: ops => runIDs (applyOp st op) ops

/-- Number of `create` operations in a trace. -/
def numCreates : List Op → Nat
  | [] => 0
  | Op.create _ _ :: ops => numCreates ops + 1
  | _ :: ops => numCreates ops

/-- Frame shape: the new entry list is the old one, or the old one with
exactly one entry replaced by an entry agreeing on every field except
possibly the status. -/
def AtMostOneChanged (old new : List Order) : Prop :=
  new = old ∨
    ∃ l₁ a b l₂, old = l₁ ++ a :: l₂ ∧ new = l₁ ++ b :: l₂ ∧
      a.id = b.id ∧ a.csr = b.csr ∧ a.certificate = b.certificate ∧
      a.createdAt = b.createdAt

/-- The order produced by the first `create` of a run (used to
instantiate the general theorems at concrete inputs). -/
def sampleOrder : Order :=
  { id := 12345, csr := "CSR-A", status := "pending",
    certificate := generateFakeCert, createdAt := 0 }

/-- A store holding the single pending order 12345. -/
def sampleStore : Store := { orders := [sampleOrder], nextID := 12346 }

/-- Order 12345 after the scheduler has fired. -/
def issuedOrder : Order :=
  { id := 12345, csr := "CSR-A", status := "issued",
    certificate := generateFakeCert, createdAt := 0 }

/-- A store holding the single issued order 12345. -/
def issuedStore : Store := { orders := [issuedOrder], nextID := 12346 }

/-- Two's-complement normalization of a 64-bit Go `int`: the value the
Go counter actually holds after an arithmetic step.  `Store.nextID`
above keeps the convenient unbounded view for the lookup/mutation
claims, where the counter value is irrelevant; for the identifier-
sequence claim the wrap is load-bearing and is modelled here
faithfully (`int` is 64 bits on Go's standard 64-bit targets). -/
def goWrap (x : Int) : Int := (x + 2 ^ 63) % 2 ^ 64 - 2 ^ 63

/-- The Go counter after `k` further `nextID++` increments under
64-bit wrapping semantics.  Only `create` ever touches `nextID`
(`mutators_frame` below shows the two mutating operations preserve
it), so a sequence of creates is fully described by its length. -/
def counterAfter : Nat → Int → Int
  | 0, x => x
  | k + 1, x => counterAfter k (goWrap (x + 1))

/-- The identifiers returned by `n` successive `create` calls when the
Go counter starts at `x`: each call returns the current counter and
increments it with 64-bit wraparound. -/
def goCreateIDs : Nat → Int → List Int
  | 0, _ => []
  | n + 1, x => x :: goCreateIDs n (goWrap (x + 1))

/-! ## Decimal rendering: correctness and injectivity -/

/-- `digitChar10` is read back by `charVal` on genuine digits. -/
theorem charVal_digitChar10 : ∀ d < 10, charVal (digitChar10 d) = d := by
  decide

/-- Appending one digit multiplies the value by ten and adds it. -/
theorem parseDigits_append (l : List Char) (c : Char) :
    parseDigits (l ++ [c]) = 10 * parseDigits l + charVal c := by
  simp [parseDigits, List.foldl_append]

/-- With enough fuel, `decList` renders exactly the digits of `n`. -/
theorem parseDigits_decList :
    ∀ (fuel n : Nat), n < 10 ^ fuel → parseDigits (decList fuel n) = n := by
  intro fuel
  induction fuel with
  | zero =>
    intro n hn
    have hn0 : n = 0 := by simpa using Nat.lt_one_iff.mp (by simpa using hn)
    subst hn0
    rfl
  | succ fuel ih =>
    intro n hn
    by_cases h : n / 10 = 0
    · have h10 : n % 10 < 10 := Nat.mod_lt _ (by norm_num)
      simp only [decList, h, if_pos]
      show parseDigits [digitChar10 (n % 10)] = n
      simp [parseDigits, charVal_digitChar10 _ h10]
      omega
    · have hdiv : n / 10 < 10 ^ fuel := by
        rw [Nat.div_lt_iff_lt_mul (by norm_num)]
        calc n < 10 ^ (fuel + 1) := hn
          _ = 10 ^ fuel * 10 := by ring
      have h10 : n % 10 < 10 := Nat.mod_lt _ (by norm_num)
      simp only [decList, h, if_neg, ite_false]
      rw [parseDigits_append, ih _ hdiv, charVal_digitChar10 _ h10]
      omega

/-- The canonical decimal rendering is injective: two distinct ids
never print to the same string. -/
theorem decString_inj {a b : Nat} (h : decString a = decString b) : a = b := by
  have bound : ∀ n : Nat, n < 10 ^ (n + 1) := fun n =>
    lt_of_lt_of_le (Nat.lt_pow_self (by norm_num) n)
      (Nat.pow_le_pow_right (by norm_num) (Nat.le_succ n))
  have hdata : decList (a + 1) a = decList (b + 1) b := congrArg String.data h
  calc a = parseDigits (decList (a + 1) a) := (parseDigits_decList _ _ (bound a)).symm
    _ = parseDigits (decList (b + 1) b) := by rw [hdata]
    _ = b := parseDigits_decList _ _ (bound b)

/-! ## Scan and mark-issued helper lemmas -/

/-- When no stored id renders to `s`, the revoke scan finds nothing and
returns the entries untouched. -/
theorem revokeScan_no_match :
    ∀ (l : List Order) (s : String), (∀ o ∈ l, decString o.id ≠ s) →
      revokeScan l s = (l, false) := by
  intro l s
  induction l with
  | nil => intro _; rfl
  | cons a rest ih =>
    intro h
    have ha : decString a.id ≠ s := h a (by simp)
    have hr := ih (fun o ho => h o (by simp [ho]))
    simp [revokeScan, ha, hr]

/-- The scan preserves the ids of the entries. -/
theorem revokeScan_ids :
    ∀ (l : List Order) (s : String),
      (revokeScan l s).1.map Order.id = l.map Order.id := by
  intro l s
  induction l with
  | nil => rfl
  | cons a rest ih =>
    by_cases hm : decString a.id = s
    · simp [revokeScan, hm]
    · simp [revokeScan, hm, ih]

/-- If the order with key `i` exists, scanning for the canonical
rendering of `i` reports success and leaves that order revoked; nothing
else moves, so a keyed lookup afterwards sees the revoked order. -/
theorem revokeScan_find :
    ∀ (l : List Order) (i : Nat) (o : Order),
      l.find? (fun o' => o'.id == i) = some o →
      (revokeScan l (decString i)).2 = true ∧
      (revokeScan l (decString i)).1.find? (fun o' => o'.id == i) =
        some { o with status := "revoked" } := by
  intro l i
  induction l with
  | nil => intro o h; simp [List.find?] at h
  | cons a rest ih =>
    intro o h
    by_cases ha : a.id = i
    · rw [List.find?_cons_of_pos _ (by simp [ha])] at h
      obtain rfl : a = o := Option.some.inj h
      have hm : decString a.id = decString i := by rw [ha]
      constructor
      · simp [revokeScan, hm]
      · simp only [revokeScan, hm, if_pos]
        exact List.find?_cons_of_pos _ (by simp [ha])
    · rw [List.find?_cons_of_neg _ (by simp [ha])] at h
      have hm : decString a.id ≠ decString i := fun hc => ha (decString_inj hc)
      obtain ⟨h2, h1⟩ := ih o h
      constructor
      · simp [revokeScan, hm, h2]
      · simp only [revokeScan, hm, ite_false, if_neg, not_false_iff]
        rw [List.find?_cons_of_neg _ (by simp [ha])]
        exact h1

/-- The scan changes at most one entry, and only its status field. -/
theorem revokeScan_frame :
    ∀ (l : List Order) (s : String), AtMostOneChanged l (revokeScan l s).1 := by
  intro l s
  induction l with
  | nil => exact Or.inl rfl
  | cons a rest ih =>
    by_cases hm : decString a.id = s
    · exact Or.inr ⟨[], a, { a with status := "revoked" }, rest, by simp,
        by simp [revokeScan, hm], rfl, rfl, rfl, rfl⟩
    · rcases ih with h | ⟨l₁, x, y, l₂, h1, h2, hf⟩
      · exact Or.inl (by simp [revokeScan, hm, h])
      · exact Or.inr ⟨a :: l₁, x, y, l₂, by simp [h1],
          by simp [revokeScan, hm, h2], hf⟩

/-- Rewriting statuses for a key matched by no entry is the identity. -/
theorem map_markIssued_eq_self (l : List Order) (i : Nat)
    (h : ∀ o ∈ l, o.id ≠ i) :
    l.map (fun o => if o.id = i then { o with status := "issued" } else o) = l := by
  calc l.map (fun o => if o.id = i then { o with status := "issued" } else o)
      = l.map (fun o => o) := List.map_congr_left (fun a ha => by simp [h a ha])
    _ = l := List.map_id' l

/-- The status rewrite keeps every entry's id. -/
theorem markIssued_id_map (l : List Order) (i : Nat) :
    (l.map (fun o => if o.id = i then { o with status := "issued" } else o)).map
      Order.id = l.map Order.id := by
  rw [List.map_map]
  exact List.map_congr_left (fun a _ => by by_cases h : a.id = i <;> simp [h])

/-- The scheduler body on an absent key leaves the store untouched. -/
theorem markIssued_none (st : Store) (i : Nat) (h : get i st = none) :
    markIssued i st = st := by
  have h' := List.find?_eq_none.mp h
  have hm : st.orders.map
      (fun o => if o.id = i then { o with status := "issued" } else o) = st.orders :=
    map_markIssued_eq_self _ _ (fun o ho => by simpa using h' o ho)
  unfold markIssued
  rw [hm]

/-- A keyed lookup after the status rewrite sees the issued order. -/
theorem find?_markIssued (l : List Order) (i : Nat) (o : Order)
    (h : l.find? (fun o' => o'.id == i) = some o) :
    (l.map (fun o' => if o'.id = i then { o' with status := "issued" } else o')).find?
      (fun o' => o'.id == i) = some { o with status := "issued" } := by
  induction l with
  | nil => simp [List.find?] at h
  | cons a rest ih =>
    by_cases ha : a.id = i
    · rw [List.find?_cons_of_pos _ (by simp [ha])] at h
      obtain rfl : a = o := Option.some.inj h
      rw [List.map_cons, if_pos ha]
      exact List.find?_cons_of_pos _ (by simp [ha])
    · rw [List.find?_cons_of_neg _ (by simp [ha])] at h
      rw [List.map_cons, if_neg ha]
      rw [List.find?_cons_of_neg _ (by simp [ha])]
      exact ih h

/-- With duplicate-free ids, the status rewrite changes at most one
entry, and only its status field. -/
theorem markIssued_frame_list :
    ∀ (l : List Order) (i : Nat), (l.map Order.id).Nodup →
      AtMostOneChanged l
        (l.map (fun o => if o.id = i then { o with status := "issued" } else o)) := by
  intro l i
  induction l with
  | nil => intro _; exact Or.inl rfl
  | cons a rest ih =>
    intro hnd
    rw [List.map_cons, List.nodup_cons] at hnd
    obtain ⟨hna, hnd'⟩ := hnd
    by_cases ha : a.id = i
    · have htail : ∀ o ∈ rest, o.id ≠ i := fun o ho hoi =>
        hna (by rw [ha, ← hoi]; exact List.mem_map_of_mem _ ho)
      exact Or.inr ⟨[], a, { a with status := "issued" }, rest, by simp,
        by simp [List.map_cons, ha, map_markIssued_eq_self rest i htail],
        rfl, rfl, rfl, rfl⟩
    · rcases ih hnd' with h | ⟨l₁, x, y, l₂, h1, h2, hf⟩
      · exact Or.inl (by simp [List.map_cons, ha, h])
      · exact Or.inr ⟨a :: l₁, x, y, l₂, by simp [h1],
          by simp [List.map_cons, ha, h2], hf⟩

/-- Unfolding `certificateIfReady` at a present key. -/
theorem certificateIfReady_some (i : Nat) (st : Store) (o : Order)
    (h : get i st = some o) :
    certificateIfReady i st =
      if o.status ≠ "issued" then CollectResult.notReady o.status
      else CollectResult.cert o.certificate := by
  unfold certificateIfReady
  rw [h]

/-! ## Trace lemmas -/

/-- The ids handed out by the creates of a trace are exactly the
consecutive integers from the current counter. -/
theorem runIDs_eq :
    ∀ (ops : List Op) (st : Store),
      runIDs st ops = List.range' st.nextID (numCreates ops) := by
  intro ops
  induction ops with
  | nil => intro st; rfl
  | cons op ops ih =>
    intro st
    cases op with
    | create csr now =>
      show st.nextID :: runIDs (applyOp st (Op.create csr now)) ops =
        List.range' st.nextID (numCreates ops + 1)
      rw [ih, List.range'_succ]
      rfl
    | schedFire i =>
      show runIDs (applyOp st (Op.schedFire i)) ops =
        List.range' st.nextID (numCreates ops)
      rw [ih]
      rfl
    | revoke s =>
      show runIDs (applyOp st (Op.revoke s)) ops =
        List.range' st.nextID (numCreates ops)
      rw [ih]
      rfl

/-- Every order held after running a trace carries an id that was
either already stored or returned by one of the trace's creates. -/
theorem run_mem_ids :
    ∀ (ops : List Op) (st : Store) (o : Order),
      o ∈ (run st ops).orders →
      o.id ∈ st.orders.map Order.id ∨ o.id ∈ runIDs st ops := by
  intro ops
  induction ops with
  | nil => intro st o ho; exact Or.inl (List.mem_map_of_mem _ ho)
  | cons op ops ih =>
    intro st o ho
    have ho' : o ∈ (run (applyOp st op) ops).orders := ho
    rcases ih (applyOp st op) o ho' with h | h
    · cases op with
      | create csr now =>
        have : o.id ∈ st.orders.map Order.id ++ [st.nextID] := by
          simpa [applyOp, create] using h
        rcases List.mem_append.mp this with h1 | h1
        · exact Or.inl h1
        · refine Or.inr ?_
          show o.id ∈ st.nextID :: runIDs (applyOp st (Op.create csr now)) ops
          simp only [List.mem_singleton] at h1
          exact h1 ▸ List.mem_cons_self _ _
      | schedFire i =>
        refine Or.inl ?_
        have hm : (applyOp st (Op.schedFire i)).orders.map Order.id =
            st.orders.map Order.id := markIssued_id_map st.orders i
        exact hm ▸ h
      | revoke s =>
        refine Or.inl ?_
        have hm : (applyOp st (Op.revoke s)).orders.map Order.id =
            st.orders.map Order.id := revokeScan_ids st.orders s
        exact hm ▸ h
    · cases op with
      | create csr now =>
        refine Or.inr ?_
        show o.id ∈ st.nextID :: runIDs (applyOp st (Op.create csr now)) ops
        exact List.mem_cons_of_mem _ h
      | schedFire i => exact Or.inr h
      | revoke s => exact Or.inr h

/-! ## Claim theorems -/

/-- C1: the claimed invariant "Revoked is terminal" fails on the code:
on the reachable interleaving create, revoke (before the scheduler's
delay elapses), scheduler fires, order 12345 is first Revoked and then
flipped back to Issued by the unconditional scheduler write. -/
theorem revoked_flips_to_issued_after_scheduler :
    getStatus 12345 (run initStore
      [Op.create "CSR-A" 0, Op.revoke "12345"]) = some "revoked" ∧
    getStatus 12345 (run initStore
      [Op.create "CSR-A" 0, Op.revoke "12345", Op.schedFire 12345]) =
      some "issued" ∧
    ("issued" : String) ≠ "revoked" :=
  ⟨rfl, rfl, by decide⟩

/-- In the range of a 64-bit `int`, the wrap is the identity. -/
theorem goWrap_eq_self {x : Int} (h1 : -2 ^ 63 ≤ x) (h2 : x < 2 ^ 63) :
    goWrap x = x := by
  have e63 : (2 : Int) ^ 63 = 9223372036854775808 := by norm_num
  have e64 : (2 : Int) ^ 64 = 18446744073709551616 := by norm_num
  unfold goWrap
  rw [e63] at h1 h2
  rw [e63, e64]
  rw [Int.emod_eq_of_lt (by omega) (by omega)]
  omega

/-- Before the counter reaches the 64-bit maximum, increments do not
wrap. -/
theorem counterAfter_no_wrap :
    ∀ (k : Nat) (x : Int), -2 ^ 63 ≤ x → x + k ≤ 2 ^ 63 - 1 →
      counterAfter k x = x + k := by
  intro k
  induction k with
  | zero => intro x _ _; simp [counterAfter]
  | succ k ih =>
    intro x hlo hhi
    have e63 : (2 : Int) ^ 63 = 9223372036854775808 := by norm_num
    rw [e63] at hlo hhi
    push_cast at hhi
    have hw : goWrap (x + 1) = x + 1 :=
      goWrap_eq_self (by rw [e63]; omega) (by rw [e63]; omega)
    show counterAfter k (goWrap (x + 1)) = x + ((k + 1 : Nat) : Int)
    rw [hw, ih (x + 1) (by rw [e63]; omega) (by rw [e63]; push_cast; omega)]
    push_cast
    ring

/-- Splitting a run of creates at any point. -/
theorem goCreateIDs_append :
    ∀ (m n : Nat) (x : Int),
      goCreateIDs (m + n) x =
        goCreateIDs m x ++ goCreateIDs n (counterAfter m x) := by
  intro m
  induction m with
  | zero => intro n x; simp [goCreateIDs, counterAfter]
  | succ m ih =>
    intro n x
    have hm : m + 1 + n = (m + n) + 1 := by omega
    rw [hm]
    show x :: goCreateIDs (m + n) (goWrap (x + 1)) =
      (x :: goCreateIDs m (goWrap (x + 1))) ++
        goCreateIDs n (counterAfter m (goWrap (x + 1)))
    rw [ih, List.cons_append]

/-- As long as the counter never reaches the 64-bit maximum, the
created identifiers are the consecutive integers from the start
value. -/
theorem goCreateIDs_no_wrap :
    ∀ (n : Nat) (x : Int), -2 ^ 63 ≤ x → x + n ≤ 2 ^ 63 →
      goCreateIDs n x = (List.range n).map (fun k : Nat => x + (k : Int)) := by
  intro n
  induction n with
  | zero => intro x _ _; rfl
  | succ n ih =>
    intro x hlo hhi
    cases n with
    | zero =>
      show [x] = (List.range 1).map (fun k : Nat => x + (k : Int))
      simp [List.range_succ]
    | succ m =>
      have e63 : (2 : Int) ^ 63 = 9223372036854775808 := by norm_num
      rw [e63] at hlo hhi
      push_cast at hhi
      have hw : goWrap (x + 1) = x + 1 :=
        goWrap_eq_self (by rw [e63]; omega) (by rw [e63]; omega)
      show x :: goCreateIDs (m + 1) (goWrap (x + 1)) =
        (List.range (m + 2)).map (fun k : Nat => x + (k : Int))
      rw [hw, ih (x + 1) (by rw [e63]; omega) (by rw [e63]; push_cast; omega)]
      have hr : List.range (m + 2) = 0 :: List.map Nat.succ (List.range (m + 1)) :=
        List.range_succ_eq_map (m + 1)
      rw [hr, List.map_cons, List.map_map]
      refine List.cons_eq_cons.mpr ⟨by omega, ?_⟩
      refine List.map_congr_left (fun k _ => ?_)
      show x + 1 + (k : Int) = x + ((k + 1 : Nat) : Int)
      push_cast
      ring

/-- C2 counterexample: after enough creates the 64-bit counter wraps,
so the claimed strict increase over *every* sequence of creates fails:
with 2^63 − 12344 creates the last identifier, −2^63, is smaller than
its predecessor 2^63 − 1. -/
theorem create_ids_overflow_counterexample :
    ¬ List.Pairwise (· < ·) (goCreateIDs 9223372036854763464 12345) := by
  intro hp
  have hsplit : (9223372036854763464 : Nat) = 9223372036854763462 + 2 := by
    norm_num
  rw [hsplit, goCreateIDs_append] at hp
  have hc : counterAfter 9223372036854763462 12345 = 9223372036854775807 := by
    rw [counterAfter_no_wrap 9223372036854763462 12345 (by norm_num)
      (by norm_num)]
    norm_num
  rw [hc] at hp
  have hw : goWrap ((9223372036854775807 : Int) + 1) = -9223372036854775808 := by
    unfold goWrap
    norm_num
  have h2 : goCreateIDs 2 (9223372036854775807 : Int) =
      [(9223372036854775807 : Int), -9223372036854775808] := by
    show (9223372036854775807 : Int) ::
      goCreateIDs 1 (goWrap (9223372036854775807 + 1)) = _
    rw [hw]
    rfl
  rw [h2] at hp
  have hsub : List.Pairwise (· < ·)
      [(9223372036854775807 : Int), -9223372036854775808] :=
    hp.sublist (List.sublist_append_right _ _)
  have hlt : (9223372036854775807 : Int) < -9223372036854775808 :=
    List.rel_of_pairwise_cons hsub (by simp)
  omega

/-- C2 (amended): for every sequence of at most 2^63 − 12345 `create`
calls — i.e. before the 64-bit counter overflows — the returned
identifiers are exactly the consecutive integers starting at the base
value 12345, hence pairwise distinct and strictly increasing; beyond
that bound the counter wraps and strict increase fails
(`create_ids_overflow_counterexample`). -/
theorem create_ids_strictly_increasing_before_overflow (n : Nat)
    (h : (n : Int) ≤ 2 ^ 63 - 12345) :
    goCreateIDs n 12345 =
      (List.range n).map (fun k : Nat => (12345 : Int) + (k : Int)) ∧
    List.Pairwise (· < ·) (goCreateIDs n 12345) ∧
    List.Pairwise (· ≠ ·) (goCreateIDs n 12345) := by
  have e63 : (2 : Int) ^ 63 = 9223372036854775808 := by norm_num
  rw [e63] at h
  have hids := goCreateIDs_no_wrap n 12345 (by rw [e63]; omega)
    (by rw [e63]; omega)
  refine ⟨hids, ?_, ?_⟩
  · rw [hids]
    refine List.Pairwise.map _ (fun a b hab => ?_) (List.pairwise_lt_range n)
    show (12345 : Int) + (a : Int) < (12345 : Int) + (b : Int)
    omega
  · rw [hids]
    refine List.Pairwise.map _ (fun a b hab => ?_) (List.pairwise_lt_range n)
    show (12345 : Int) + (a : Int) ≠ (12345 : Int) + (b : Int)
    omega

/-- C3: `create` always succeeds, inserts a Pending order carrying the
caller's CSR verbatim and the placeholder certificate, and immediately
afterwards `get` reports Pending and `certificateIfReady` reports
NotReady. -/
theorem create_pending_not_ready (csr : String) (now : Nat) (st : Store)
    (hfresh : ∀ o ∈ st.orders, o.id ≠ st.nextID) :
    get (create csr now st).1 (create csr now st).2 =
      some { id := st.nextID, csr := csr, status := "pending",
             certificate := generateFakeCert, createdAt := now } ∧
    getStatus (create csr now st).1 (create csr now st).2 = some "pending" ∧
    certificateIfReady (create csr now st).1 (create csr now st).2 =
      CollectResult.notReady "pending" := by
  have h1 : st.orders.find? (fun o => o.id == st.nextID) = none :=
    List.find?_eq_none.mpr (fun o ho => by simpa using hfresh o ho)
  have hget : get (create csr now st).1 (create csr now st).2 =
      some { id := st.nextID, csr := csr, status := "pending",
             certificate := generateFakeCert, createdAt := now } := by
    show ((st.orders ++
        [({ id := st.nextID, csr := csr, status := "pending",
            certificate := generateFakeCert, createdAt := now } : Order)]).find?
      (fun o => o.id == st.nextID)) = _
    rw [List.find?_append, h1]
    simp [List.find?]
  refine ⟨hget, by simp [getStatus, hget], ?_⟩
  rw [certificateIfReady_some _ _ _ hget]
  rfl

/-- C4: for a stored order, `certificateIfReady` releases the stored
certificate body exactly when the status is Issued; when the order
exists with any other status it reports NotReady carrying that status,
which is distinct from the NotFound report for absent identifiers. -/
theorem collect_iff_issued (st : Store) (i : Nat) (o : Order)
    (h : get i st = some o) :
    (o.status = "issued" →
      certificateIfReady i st = CollectResult.cert o.certificate) ∧
    (o.status ≠ "issued" →
      certificateIfReady i st = CollectResult.notReady o.status ∧
      certificateIfReady i st ≠ CollectResult.notFound ∧
      ∀ b, certificateIfReady i st ≠ CollectResult.cert b) := by
  rw [certificateIfReady_some i st o h]
  constructor
  · intro hi
    rw [if_neg (by simp [hi])]
  · intro hi
    rw [if_pos hi]
    exact ⟨rfl, by simp, fun b => by simp⟩

/-- C5: revoking an existing order through the canonical decimal
rendering of its identifier reports success and leaves the order
Revoked, whatever its prior status; a second identical call again
reports success and keeps the status Revoked. -/
theorem revoke_existing_idempotent_success (st : Store) (i : Nat) (o : Order)
    (h : get i st = some o) :
    (revokeByExternalID (decString i) st).2.status = "success" ∧
    getStatus i (revokeByExternalID (decString i) st).1 = some "revoked" ∧
    (revokeByExternalID (decString i)
      (revokeByExternalID (decString i) st).1).2.status = "success" ∧
    getStatus i (revokeByExternalID (decString i)
      (revokeByExternalID (decString i) st).1).1 = some "revoked" := by
  obtain ⟨hfound, hfind⟩ := revokeScan_find st.orders i o h
  have hget1 : get i (revokeByExternalID (decString i) st).1 =
      some { o with status := "revoked" } := hfind
  obtain ⟨hfound2, hfind2⟩ :=
    revokeScan_find (revokeByExternalID (decString i) st).1.orders i _ hget1
  have hfound2' :
      (revokeScan (revokeScan st.orders (decString i)).1 (decString i)).2 =
        true := hfound2
  refine ⟨?_, ?_, ?_, ?_⟩
  · simp [revokeByExternalID, hfound]
  · simp [getStatus, hget1]
  · simp [revokeByExternalID, hfound2']
  · have hget2 : get i (revokeByExternalID (decString i)
        (revokeByExternalID (decString i) st).1).1 =
        some { o with status := "revoked" } := hfind2
    simp [getStatus, hget2]

/-- C6: a revoke request whose string matches no stored identifier's
rendering reports failure and returns the store with every order's
every field unchanged. -/
theorem revoke_no_match_unchanged (st : Store) (s : String)
    (h : ∀ o ∈ st.orders, decString o.id ≠ s) :
    revokeByExternalID s st =
      (st, { status := "failure", message := "Order not found" }) := by
  unfold revokeByExternalID
  rw [revokeScan_no_match st.orders s h]
  rfl

/-- C7: an identifier never returned by any `create` of a trace is
reported NotFound by `get` (hence by the status endpoint) and by
`certificateIfReady`. -/
theorem never_created_not_found (ops : List Op) (i : Nat)
    (h : i ∉ runIDs initStore ops) :
    get i (run initStore ops) = none ∧
    getStatus i (run initStore ops) = none ∧
    certificateIfReady i (run initStore ops) = CollectResult.notFound := by
  have hg : get i (run initStore ops) = none := by
    refine List.find?_eq_none.mpr ?_
    intro o ho hbeq
    have hid : o.id = i := by simpa using hbeq
    rcases run_mem_ids ops initStore o ho with hmem | hmem
    · simp [initStore] at hmem
    · exact h (hid ▸ hmem)
  refine ⟨hg, by simp [getStatus, hg], ?_⟩
  unfold certificateIfReady
  rw [hg]

/-- C8: when the scheduler's transition fires for an existing order it
sets the status to Issued, after which `get` reports Issued and
`certificateIfReady` releases the stored certificate body; firing for
an absent identifier leaves the store exactly unchanged (a silent
no-op). -/
theorem scheduler_fire_issues_or_noop (st : Store) (i : Nat) :
    (∀ o, get i st = some o →
      getStatus i (markIssued i st) = some "issued" ∧
      certificateIfReady i (markIssued i st) =
        CollectResult.cert o.certificate) ∧
    (get i st = none → markIssued i st = st) := by
  constructor
  · intro o h
    have hget : get i (markIssued i st) = some { o with status := "issued" } :=
      find?_markIssued st.orders i o h
    refine ⟨by simp [getStatus, hget], ?_⟩
    rw [certificateIfReady_some _ _ _ hget, if_neg (by simp)]
  · exact markIssued_none st i

/-- C9: the two mutating operations — the scheduler's mark-issued and
the revoke scan — replace at most one entry, agree with the old entry
on id, CSR, certificate and creation time, insert and remove nothing,
and leave the id counter alone. -/
theorem mutators_frame (st : Store) (i : Nat) (s : String)
    (hnd : (st.orders.map Order.id).Nodup) :
    AtMostOneChanged st.orders (markIssued i st).orders ∧
    AtMostOneChanged st.orders (revokeByExternalID s st).1.orders ∧
    (markIssued i st).nextID = st.nextID ∧
    (revokeByExternalID s st).1.nextID = st.nextID :=
  ⟨markIssued_frame_list st.orders i hnd, revokeScan_frame st.orders s,
    rfl, rfl⟩

/-- C10: the revoke scan matches by exact string equality against the
canonical decimal rendering, so a string that parses to an existing
identifier but is not its canonical rendering (leading zero, sign or
space) matches nothing: the call reports failure and the store is
unchanged. -/
theorem revoke_exact_string_match_only (st : Store) (i : Nat) (o : Order)
    (s : String) (hex : get i st = some o)
    (hparse : sscanfDec s = some (i : Int))
    (hnc : ∀ o' ∈ st.orders, decString o'.id ≠ s) :
    (revokeByExternalID s st).2.status = "failure" ∧
    (revokeByExternalID s st).1 = st := by
  unfold revokeByExternalID
  rw [revokeScan_no_match st.orders s hnc]
  exact ⟨rfl, rfl⟩

/-! ## Witnesses -/

/-- Witness for C2 (amended) at three creates. -/
theorem create_ids_strictly_increasing_before_overflow_witness :
    goCreateIDs 3 12345 =
      (List.range 3).map (fun k : Nat => (12345 : Int) + (k : Int)) ∧
    List.Pairwise (· < ·) (goCreateIDs 3 12345) ∧
    List.Pairwise (· ≠ ·) (goCreateIDs 3 12345) :=
  create_ids_strictly_increasing_before_overflow 3 (by norm_num)

/-- Witness for C3 at the initial store. -/
theorem create_pending_not_ready_witness :
    get (create "CSR-A" 0 initStore).1 (create "CSR-A" 0 initStore).2 =
      some { id := initStore.nextID, csr := "CSR-A", status := "pending",
             certificate := generateFakeCert, createdAt := 0 } ∧
    getStatus (create "CSR-A" 0 initStore).1 (create "CSR-A" 0 initStore).2 =
      some "pending" ∧
    certificateIfReady (create "CSR-A" 0 initStore).1
      (create "CSR-A" 0 initStore).2 = CollectResult.notReady "pending" :=
  create_pending_not_ready "CSR-A" 0 initStore
    (by intro o ho; simp [initStore] at ho)

/-- Witness for C4 at the issued sample store. -/
theorem collect_iff_issued_witness :
    (issuedOrder.status = "issued" →
      certificateIfReady 12345 issuedStore =
        CollectResult.cert issuedOrder.certificate) ∧
    (issuedOrder.status ≠ "issued" →
      certificateIfReady 12345 issuedStore =
        CollectResult.notReady issuedOrder.status ∧
      certificateIfReady 12345 issuedStore ≠ CollectResult.notFound ∧
      ∀ b, certificateIfReady 12345 issuedStore ≠ CollectResult.cert b) :=
  collect_iff_issued issuedStore 12345 issuedOrder rfl

/-- Witness for C5 at the pending sample store. -/
theorem revoke_existing_idempotent_success_witness :
    (revokeByExternalID (decString 12345) sampleStore).2.status = "success" ∧
    getStatus 12345 (revokeByExternalID (decString 12345) sampleStore).1 =
      some "revoked" ∧
    (revokeByExternalID (decString 12345)
      (revokeByExternalID (decString 12345) sampleStore).1).2.status =
      "success" ∧
    getStatus 12345 (revokeByExternalID (decString 12345)
      (revokeByExternalID (decString 12345) sampleStore).1).1 =
      some "revoked" :=
  revoke_existing_idempotent_success sampleStore 12345 sampleOrder rfl

/-- Witness for C6 at the pending sample store. -/
theorem revoke_no_match_unchanged_witness :
    revokeByExternalID "99999" sampleStore =
      (sampleStore, { status := "failure", message := "Order not found" }) :=
  revoke_no_match_unchanged sampleStore "99999" (by decide)

/-- Witness for C7 on a one-create trace. -/
theorem never_created_not_found_witness :
    get 99 (run initStore [Op.create "CSR-A" 0]) = none ∧
    getStatus 99 (run initStore [Op.create "CSR-A" 0]) = none ∧
    certificateIfReady 99 (run initStore [Op.create "CSR-A" 0]) =
      CollectResult.notFound :=
  never_created_not_found [Op.create "CSR-A" 0] 99 (by decide)

/-- Witness for C8 at the pending sample store. -/
theorem scheduler_fire_issues_or_noop_witness :
    getStatus 12345 (markIssued 12345 sampleStore) = some "issued" ∧
    certificateIfReady 12345 (markIssued 12345 sampleStore) =
      CollectResult.cert sampleOrder.certificate :=
  (scheduler_fire_issues_or_noop sampleStore 12345).1 sampleOrder rfl

/-- Witness for C9 at the pending sample store. -/
theorem mutators_frame_witness :
    AtMostOneChanged sampleStore.orders (markIssued 12345 sampleStore).orders ∧
    AtMostOneChanged sampleStore.orders
      (revokeByExternalID "12345" sampleStore).1.orders ∧
    (markIssued 12345 sampleStore).nextID = sampleStore.nextID ∧
    (revokeByExternalID "12345" sampleStore).1.nextID = sampleStore.nextID :=
  mutators_frame sampleStore 12345 "12345" (by decide)

/-- Witness for C10: "012345" parses to the stored id 12345 yet matches
nothing, so the revoke fails and the store is untouched. -/
theorem revoke_exact_string_match_only_witness :
    (revokeByExternalID "012345" sampleStore).2.status = "failure" ∧
    (revokeByExternalID "012345" sampleStore).1 = sampleStore :=
  revoke_exact_string_match_only sampleStore 12345 sampleOrder "012345"
    rfl (by decide) (by decide)
